import Mathlib

/-
Verification of the goproxyclient repository: a client that resolves Go
module queries against an ordered chain of module proxies.

Specification strings (GOPROXY-style) are modelled as `List Char`.
URLs, module paths and error messages are Lean `String`s.

The embedding follows the source files:
  client.go   : New, Client.loop, Info/Latest/List/Mod/Zip, IsNotFound
  single.go   : newSingle, single.list/info/latest/mod/zip, getContent,
                handleInfoRequest
  (unnamed)   : newMulti (the strict constructor), Parse (the tokenizer)
External collaborators (net/http transport, encoding/json decoding,
golang.org/x/mod/semver ordering) are modelled from the spec as an
explicit `World` of oracles; everything else is translated from the source.
-/

/-- Separator test used by strings.IndexFunc in New, newMulti and Parse:
a rune is a separator iff it is ',' or '|'. -/
def isSep (c : Char) : Bool := c == ',' || c == '|'

/-- Sentinel test: the tokens "direct", "off" and "" produce no chain entry
(the switch statements in New and newMulti). -/
def isSentinel (t : List Char) : Bool :=
  t == "direct".data || t == "off".data || t == ([] : List Char)

/-- Tokenization step shared by New, newMulti and Parse: the Go code
repeatedly finds the first separator with strings.IndexFunc and splits
there.  tokensEnd returns the separator-delimited tokens left to right,
each paired with the separator that terminated its span (none for the
final token).  It never special-cases sentinel values. -/
def tokensEnd : List Char → List (List Char × Option Char)
  | [] => [([], none)]
  | c :: r =>
    if isSep c then ([], some c) :: tokensEnd r
    else
      match tokensEnd r with
      | [] => [([c], none)]
      | (t, s) :: more => (c :: t, s) :: more

/-- Under-specified trailing-slash trim: strings.TrimRight(url, "/") used by
newSingle removes every trailing '/'. -/
def trimRightSlashes (l : List Char) : List Char :=
  (l.reverse.dropWhile (fun c => c == '/')).reverse

/-- Mirror of the Go struct `single` (single.go): one backend, identified by
its stored base URL.  The *http.Client handle carries no observable state of
its own; the transport it denotes is modelled by `World` below. -/
structure Single where
  baseURL : String
deriving DecidableEq, Repr

/-- Mirror of newSingle (single.go): trims trailing slashes from the base
URL before storing it. -/
def newSingle (url : List Char) : Single :=
  ⟨String.mk (trimRightSlashes url)⟩

/-- Mirror of the Go struct `nextSingle` (client.go): a backend together
with the incoming transition policy (afterAnyErr true means the entry is
tried after any failure of its predecessor; false means only after a
not-found-like failure). -/
structure NextSingle where
  client : Single
  afterAnyErr : Bool
deriving DecidableEq, Repr

/-- Mirror of the Go struct `Client` (client.go): the resolved chain, a
first backend (unconditionally tried) plus the ordered list of subsequent
entries with their incoming policies. -/
structure Client where
  first : Single
  rest : List NextSingle
deriving DecidableEq, Repr

/-- Default chain produced by New when no proxy URL survives. -/
def defaultClient : Client :=
  ⟨newSingle "https://proxy.golang.org".data, []⟩

/-- Mirror of the second loop of New (client.go lines 75-97), expressed over
the token stream: afterAnyErr is the policy in effect for the next surviving
token; a sentinel updates it from its trailing separator and is skipped; a
surviving token becomes an entry carrying the policy in effect, which is
then updated from its trailing separator.  The Go loop's guard
`goproxy != ""` skips a trailing empty token, which the sentinel branch
here discards identically. -/
def newRestLoop : Bool → List (List Char × Option Char) → List NextSingle
  | _, [] => []
  | afterAnyErr, (t, none) :: _ =>
    if isSentinel t then [] else [⟨newSingle t, afterAnyErr⟩]
  | afterAnyErr, (t, some s) :: more =>
    if isSentinel t then newRestLoop (s == '|') more
    else ⟨newSingle t, afterAnyErr⟩ :: newRestLoop (s == '|') more

/-- Mirror of the first loop of New (client.go lines 52-71): skip leading
sentinels; if the input ends with only sentinels seen, fall back to the
default proxy; the first surviving token becomes the unconditional first
entry, and the remaining tokens are folded by newRestLoop starting from the
policy given by the separator that terminated the first survivor. -/
def newFirstLoop : List (List Char × Option Char) → Client
  | [] => defaultClient
  | (t, none) :: _ =>
    if isSentinel t then defaultClient else ⟨newSingle t, []⟩
  | (t, some s) :: more =>
    if isSentinel t then newFirstLoop more
    else ⟨newSingle t, newRestLoop (s == '|') more⟩

/-- Mirror of New (client.go): builds the resolved chain from a GOPROXY
specification string. -/
def New (g : List Char) : Client :=
  newFirstLoop (tokensEnd g)

/-- Mirror of the Go struct `nextClient` (the strict multi-client file),
generic in the underlying client type exactly as newMulti is generic in its
newClient argument. -/
structure NextC (β : Type) where
  client : β
  afterAnyErr : Bool
deriving DecidableEq, Repr

/-- Mirror of the Go struct `multi`: first client plus subsequent clients
with incoming policies. -/
structure MultiS (β : Type) where
  first : β
  rest : List (NextC β)
deriving DecidableEq, Repr

/-- Mirror of the second loop of newMulti, identical in structure to the
second loop of New. -/
def newMultiRestLoop (nc : List Char → β) :
    Bool → List (List Char × Option Char) → List (NextC β)
  | _, [] => []
  | afterAnyErr, (t, none) :: _ =>
    if isSentinel t then [] else [⟨nc t, afterAnyErr⟩]
  | afterAnyErr, (t, some s) :: more =>
    if isSentinel t then newMultiRestLoop nc (s == '|') more
    else ⟨nc t, afterAnyErr⟩ :: newMultiRestLoop nc (s == '|') more

/-- Mirror of the first loop of newMulti: identical to the first loop of New
except that an all-sentinel specification is a configuration error
("no proxy URL found") instead of the default chain. -/
def newMultiFirstLoop (nc : List Char → β) :
    List (List Char × Option Char) → Except (List Char) (MultiS β)
  | [] => Except.error "no proxy URL found".data
  | (t, none) :: _ =>
    if isSentinel t then Except.error "no proxy URL found".data
    else Except.ok ⟨nc t, []⟩
  | (t, some s) :: more =>
    if isSentinel t then newMultiFirstLoop nc more
    else Except.ok ⟨nc t, newMultiRestLoop nc (s == '|') more⟩

/-- Mirror of newMulti: the strict chain constructor, generic in the
per-address client constructor exactly as in the source. -/
def newMulti (nc : List Char → β) (g : List Char) : Except (List Char) (MultiS β) :=
  newMultiFirstLoop nc (tokensEnd g)

/-- Mirror of NewMulti, which instantiates newMulti with New. -/
def NewMulti (g : List Char) : Except (List Char) (MultiS Client) :=
  newMulti (fun part => New part) g

/-- Mirror of the loop inside Parse: each token is emitted paired with the
afterAnyErr flag in effect (false initially); each separator seen updates
the flag for the following token; the final token (no separator) is emitted
and the iteration ends. -/
def parseLoop : Bool → List (List Char × Option Char) → List (List Char × Bool)
  | _, [] => []
  | afterAnyErr, (t, none) :: _ => [(t, afterAnyErr)]
  | afterAnyErr, (t, some s) :: more =>
    (t, afterAnyErr) :: parseLoop (s == '|') more

/-- Mirror of Parse: the pure tokenizer of a GOPROXY string, yielding each
separator-delimited token with the flag "the preceding separator was a
pipe" (false for the first token). -/
def Parse (g : List Char) : List (List Char × Bool) :=
  parseLoop false (tokensEnd g)

/-- Error values as this program constructs and inspects them.
codeErr mirrors mid.CodeErr{C, Err} (always built here over a plain
fmt.Errorf, flattened into its message); plain mirrors an uncoded error;
wrapped mirrors errors.Wrapf, which prefixes a message and keeps the
wrapped error reachable through the Unwrap chain that errors.As walks. -/
inductive GoError where
  | codeErr (code : Nat) (msg : String)
  | plain (msg : String)
  | wrapped (msg : String) (inner : GoError)
deriving DecidableEq, Repr

/-- Status code exposed by an error, if any: errors.As(err, &codeErr) walks
the wrap chain to the first error exposing Code() int. -/
def errorCode : GoError → Option Nat
  | .codeErr c _ => some c
  | .plain _ => none
  | .wrapped _ inner => errorCode inner

/-- Codes present anywhere in the wrap chain of an error (specification-side
notion of "carries a machine-readable status code"). -/
def chainCodes : GoError → List Nat
  | .codeErr c _ => [c]
  | .plain _ => []
  | .wrapped _ inner => chainCodes inner

/-- Mirror of IsNotFound (client.go lines 219-226): true iff errors.As
finds a CodeErr in the chain and its code is 404 (http.StatusNotFound) or
410 (http.StatusGone). -/
def IsNotFound (e : GoError) : Bool :=
  match errorCode e with
  | some code => code == 404 || code == 410
  | none => false

/-- Instrumented mirror of the for-loop of Client.loop (client.go lines
107-117) over the rest of the chain, carrying the current error: a next
entry whose incoming policy is not afterAnyErr is reached only when the
current error is not-found-like, otherwise the walk returns with the
current error; an attempted entry's success returns immediately; its
failure becomes the current error.  The first component records the
backends attempted, the second is the returned outcome. -/
def loopRestT (f : Single → Except GoError α) :
    GoError → List NextSingle → List Single × Except GoError α
  | e, [] => ([], Except.error e)
  | e, next :: rest =>
    if !next.afterAnyErr && !IsNotFound e then ([], Except.error e)
    else
      match f next.client with
      | Except.ok a => ([next.client], Except.ok a)
      | Except.error e2 =>
        let t := loopRestT f e2 rest
        (next.client :: t.1, t.2)

/-- Instrumented mirror of Client.loop (client.go lines 102-118): the first
backend is always attempted; on success its result is returned, otherwise
the rest of the chain is walked by loopRestT. -/
def loopT (f : Single → Except GoError α) (cl : Client) :
    List Single × Except GoError α :=
  match f cl.first with
  | Except.ok a => ([cl.first], Except.ok a)
  | Except.error e =>
    let t := loopRestT f e cl.rest
    (cl.first :: t.1, t.2)

/-- Outcome of the chain walk, discarding the instrumentation. -/
def loopRun (f : Single → Except GoError α) (cl : Client) : Except GoError α :=
  (loopT f cl).2

/-- Backends of a resolved chain in order: entry 0 is the first backend,
entry i+1 is rest[i]. -/
def chainEntries (cl : Client) : List Single :=
  cl.first :: cl.rest.map (fun n => n.client)

/-- Mirror of an HTTP response as the five operations observe it: status
code and status text, the body both as scanned lines (list endpoint) and as
raw bytes, plus the possible bufio scan and io.ReadAll failures. -/
structure Response where
  statusCode : Nat
  status : String
  bodyLines : List String
  body : String
  scanErr : Option String
  readErr : Option String
deriving DecidableEq, Repr

/-- Modelled from the spec: the external collaborators of the backend
transport, absent from this repository's source.  newRequestErr models
http.NewRequestWithContext failing (request construction); doReq models
http.Client.Do (network transport); unmarshalInfo and unmarshalMap model
encoding/json decoding of an info document into its Version/Time fields and
into the full field map; semverLE models the ascending semantic-version
order of golang.org/x/mod/semver used to sort list results. -/
structure World where
  newRequestErr : String → Option String
  doReq : String → Except String Response
  unmarshalInfo : String → Except String (String × Int)
  unmarshalMap : String → Except String (List (String × String))
  semverLE : String → String → Bool

/-- Modelled from the spec: semver.Sort (external golang.org/x/mod/semver)
sorts version strings into ascending semantic-version order, here realised
as a sort by the order oracle. -/
def semverSort (le : String → String → Bool) (l : List String) : List String :=
  letI : DecidableRel (fun a b : String => le a b = true) :=
    fun a b => instDecidableEqBool (le a b) true
  List.insertionSort (fun a b => le a b = true) l

/-- Request URL of the list endpoint (single.go line 32). -/
def listURL (s : Single) (mp : String) : String :=
  s.baseURL ++ "/" ++ mp ++ "/@v/list"

/-- Request URL of the info endpoint (single.go line 61). -/
def infoURL (s : Single) (mp v : String) : String :=
  s.baseURL ++ "/" ++ mp ++ "/@v/" ++ v ++ ".info"

/-- Request URL of the latest endpoint (single.go line 97). -/
def latestURL (s : Single) (mp : String) : String :=
  s.baseURL ++ "/" ++ mp ++ "/@latest"

/-- Request URL of the mod and zip endpoints (single.go line 74). -/
def contentURL (s : Single) (mp v sfx : String) : String :=
  s.baseURL ++ "/" ++ mp ++ "/@v/" ++ v ++ "." ++ sfx

/-- Mirror of single.list (single.go lines 31-58): build the request,
perform it, fail with a status-coded error on a non-200 response, scan the
body lines (a scan failure is wrapped uncoded), sort with semver.Sort and
return. -/
def Single.list (w : World) (s : Single) (mp : String) :
    Except GoError (List String) :=
  let q := listURL s mp
  match w.newRequestErr q with
  | some m =>
    Except.error (GoError.wrapped ("creating GET " ++ q ++ " request") (GoError.plain m))
  | none =>
    match w.doReq q with
    | Except.error m =>
      Except.error (GoError.wrapped ("in GET " ++ q) (GoError.plain m))
    | Except.ok resp =>
      if resp.statusCode = 200 then
        match resp.scanErr with
        | some m =>
          Except.error (GoError.wrapped ("scanning response from GET " ++ q) (GoError.plain m))
        | none => Except.ok (semverSort w.semverLE resp.bodyLines)
      else
        Except.error (GoError.codeErr resp.statusCode ("GET " ++ q ++ ": " ++ resp.status))

/-- Mirror of single.handleInfoRequest (single.go lines 101-137): build and
perform the request, fail status-coded on non-200, read the body (uncoded
wrap on failure), decode the Version/Time fields and then the full field
map (uncoded wrap on either failure). -/
def Single.handleInfoRequest (w : World) (q : String) :
    Except GoError (String × Int × List (String × String)) :=
  match w.newRequestErr q with
  | some m =>
    Except.error (GoError.wrapped ("creating GET " ++ q ++ " request") (GoError.plain m))
  | none =>
    match w.doReq q with
    | Except.error m =>
      Except.error (GoError.wrapped ("in GET " ++ q) (GoError.plain m))
    | Except.ok resp =>
      if resp.statusCode = 200 then
        match resp.readErr with
        | some m =>
          Except.error (GoError.wrapped ("reading response body from GET " ++ q) (GoError.plain m))
        | none =>
          match w.unmarshalInfo resp.body with
          | Except.error m =>
            Except.error (GoError.wrapped ("unmarshaling response body from GET " ++ q) (GoError.plain m))
          | Except.ok iv =>
            match w.unmarshalMap resp.body with
            | Except.error m =>
              Except.error (GoError.wrapped ("unmarshaling response body from GET " ++ q) (GoError.plain m))
            | Except.ok m2 => Except.ok (iv.1, iv.2, m2)
      else
        Except.error (GoError.codeErr resp.statusCode ("GET " ++ q ++ ": " ++ resp.status))

/-- Mirror of single.info (single.go lines 60-63). -/
def Single.info (w : World) (s : Single) (mp v : String) :
    Except GoError (String × Int × List (String × String)) :=
  Single.handleInfoRequest w (infoURL s mp v)

/-- Mirror of single.latest (single.go lines 96-99). -/
def Single.latest (w : World) (s : Single) (mp : String) :
    Except GoError (String × Int × List (String × String)) :=
  Single.handleInfoRequest w (latestURL s mp)

/-- Mirror of single.getContent (single.go lines 73-92): build and perform
the request, fail status-coded on non-200, otherwise return the body
stream. -/
def Single.getContent (w : World) (s : Single) (mp v sfx : String) :
    Except GoError String :=
  let q := contentURL s mp v sfx
  match w.newRequestErr q with
  | some m =>
    Except.error (GoError.wrapped ("creating GET " ++ q ++ " request") (GoError.plain m))
  | none =>
    match w.doReq q with
    | Except.error m =>
      Except.error (GoError.wrapped ("in GET " ++ q) (GoError.plain m))
    | Except.ok resp =>
      if resp.statusCode = 200 then Except.ok resp.body
      else
        Except.error (GoError.codeErr resp.statusCode ("GET " ++ q ++ ": " ++ resp.status))

/-- Mirror of single.mod (single.go lines 65-67). -/
def Single.modFile (w : World) (s : Single) (mp v : String) : Except GoError String :=
  Single.getContent w s mp v "mod"

/-- Mirror of single.zip (single.go lines 69-71). -/
def Single.zipFile (w : World) (s : Single) (mp v : String) : Except GoError String :=
  Single.getContent w s mp v "zip"

/-- Mirror of Client.Info (client.go lines 132-145): the chain walk over
single.info. -/
def ClientInfo (w : World) (cl : Client) (mp v : String) :
    Except GoError (String × Int × List (String × String)) :=
  loopRun (fun s => Single.info w s mp v) cl

/-- Mirror of Client.Latest (client.go lines 149-162). -/
def ClientLatest (w : World) (cl : Client) (mp : String) :
    Except GoError (String × Int × List (String × String)) :=
  loopRun (fun s => Single.latest w s mp) cl

/-- Mirror of Client.List (client.go lines 167-178). -/
def ClientList (w : World) (cl : Client) (mp : String) :
    Except GoError (List String) :=
  loopRun (fun s => Single.list w s mp) cl

/-- Mirror of Client.Mod (client.go lines 181-192). -/
def ClientMod (w : World) (cl : Client) (mp v : String) : Except GoError String :=
  loopRun (fun s => Single.modFile w s mp v) cl

/-- Mirror of Client.Zip (client.go lines 195-206). -/
def ClientZip (w : World) (cl : Client) (mp v : String) : Except GoError String :=
  loopRun (fun s => Single.zipFile w s mp v) cl

/-- Tokens of a specification with the separator that terminated the span
of the immediately preceding token (none for the first token). -/
def sepAnnot : Option Char → List (List Char × Option Char) → List (List Char × Option Char)
  | _, [] => []
  | pre, (t, s) :: more => (t, pre) :: sepAnnot s more

/-- Tokens of a specification, each with the separator immediately
preceding it. -/
def tokensPre (g : List Char) : List (List Char × Option Char) :=
  sepAnnot none (tokensEnd g)

/-- Surviving (non-sentinel) tokens, each with the separator immediately
preceding it in the full token stream. -/
def survivorsPre (g : List Char) : List (List Char × Option Char) :=
  (tokensPre g).filter (fun p => !isSentinel p.1)

/-- Surviving (non-sentinel) tokens, each with the separator that
terminated its own token span (none for the final token). -/
def survivorsEnd (g : List Char) : List (List Char × Option Char) :=
  (tokensEnd g).filter (fun p => !isSentinel p.1)

/-- Surviving tokens as Parse emits them: paired with the flag "the
separator immediately preceding this token was a pipe". -/
def survivors (g : List Char) : List (List Char × Bool) :=
  (Parse g).filter (fun p => !isSentinel p.1)

/-- Flag pairing helper of parseLoop: the tail emitted after the head token,
empty when the head token had no terminating separator. -/
def parseTail : Option Char → List (List Char × Option Char) → List (List Char × Bool)
  | none, _ => []
  | some sc, more => parseLoop (sc == '|') more

theorem parseLoop_cons (b : Bool) (t : List Char) (s : Option Char)
    (more : List (List Char × Option Char)) :
    parseLoop b ((t, s) :: more) = (t, b) :: parseTail s more := by
  cases s <;> rfl

theorem tokensEnd_ne_nil (g : List Char) : tokensEnd g ≠ [] := by
  cases g with
  | nil => simp [tokensEnd]
  | cons c r =>
    simp only [tokensEnd]
    split
    · simp
    · split <;> simp

theorem tokensEnd_exists (g : List Char) :
    ∃ t s more, tokensEnd g = (t, s) :: more := by
  cases h : tokensEnd g with
  | nil => exact absurd h (tokensEnd_ne_nil g)
  | cons p more =>
    obtain ⟨t, s⟩ := p
    exact ⟨t, s, more, rfl⟩

theorem tokensEnd_cons_sep (c : Char) (r : List Char) (hc : isSep c = true) :
    tokensEnd (c :: r) = ([], some c) :: tokensEnd r := by
  simp [tokensEnd, hc]

theorem tokensEnd_cons_nonsep (c : Char) (r : List Char) (hc : ¬ isSep c = true)
    (t : List Char) (s : Option Char) (more : List (List Char × Option Char))
    (hr : tokensEnd r = (t, s) :: more) :
    tokensEnd (c :: r) = (c :: t, s) :: more := by
  simp [tokensEnd, hc, hr]

theorem parse_fst (g : List Char) : ∀ b,
    (parseLoop b (tokensEnd g)).map Prod.fst = (tokensEnd g).map Prod.fst := by
  induction g with
  | nil => intro b; rfl
  | cons c r ih =>
    intro b
    obtain ⟨t, s, more, htr⟩ := tokensEnd_exists r
    by_cases hc : isSep c = true
    · rw [tokensEnd_cons_sep c r hc, parseLoop_cons]
      simp only [parseTail, List.map_cons]
      rw [ih]
    · rw [tokensEnd_cons_nonsep c r hc t s more htr, parseLoop_cons]
      have ih2 := ih b
      rw [htr, parseLoop_cons] at ih2
      simp only [List.map_cons] at ih2 ⊢
      rw [List.cons_eq_cons] at ih2
      rw [ih2.2]

theorem parse_snd (g : List Char) : ∀ b,
    (parseLoop b (tokensEnd g)).map Prod.snd =
      b :: (g.filter isSep).map (fun c => c == '|') := by
  induction g with
  | nil => intro b; rfl
  | cons c r ih =>
    intro b
    obtain ⟨t, s, more, htr⟩ := tokensEnd_exists r
    by_cases hc : isSep c = true
    · rw [tokensEnd_cons_sep c r hc, parseLoop_cons]
      simp only [parseTail, List.map_cons, List.filter_cons, hc, if_true]
      rw [ih]
    · rw [tokensEnd_cons_nonsep c r hc t s more htr, parseLoop_cons]
      have ih2 := ih b
      rw [htr, parseLoop_cons] at ih2
      simp only [List.map_cons] at ih2 ⊢
      rw [List.cons_eq_cons] at ih2
      rw [ih2.2]
      simp [List.filter_cons, hc]

theorem parse_annot (g : List Char) : ∀ pre : Option Char,
    parseLoop (pre == some '|') (tokensEnd g) =
      (sepAnnot pre (tokensEnd g)).map (fun p => (p.1, p.2 == some '|')) := by
  induction g with
  | nil => intro pre; rfl
  | cons c r ih =>
    intro pre
    obtain ⟨t, s, more, htr⟩ := tokensEnd_exists r
    by_cases hc : isSep c = true
    · rw [tokensEnd_cons_sep c r hc, parseLoop_cons]
      simp only [parseTail, sepAnnot, List.map_cons]
      have : (c == '|') = ((some c : Option Char) == some '|') := rfl
      rw [this, ih (some c)]
    · rw [tokensEnd_cons_nonsep c r hc t s more htr, parseLoop_cons]
      have ih2 := ih pre
      rw [htr, parseLoop_cons] at ih2
      simp only [sepAnnot, List.map_cons] at ih2 ⊢
      rw [List.cons_eq_cons] at ih2
      rw [ih2.2]

theorem parse_concat_sep (g : List Char) : ∀ (b : Bool) (c : Char), isSep c = true →
    parseLoop b (tokensEnd (g ++ [c])) =
      parseLoop b (tokensEnd g) ++ [([], c == '|')] := by
  induction g with
  | nil =>
    intro b c hc
    rw [List.nil_append, tokensEnd_cons_sep c [] hc]
    rfl
  | cons a g2 ih =>
    intro b c hc
    by_cases ha : isSep a = true
    · rw [List.cons_append, tokensEnd_cons_sep a (g2 ++ [c]) ha,
        tokensEnd_cons_sep a g2 ha, parseLoop_cons, parseLoop_cons]
      simp only [parseTail, List.cons_append]
      rw [ih (a == '|') c hc]
    · obtain ⟨t, s, more, htr⟩ := tokensEnd_exists g2
      obtain ⟨t2, s2, more2, htr2⟩ := tokensEnd_exists (g2 ++ [c])
      rw [List.cons_append, tokensEnd_cons_nonsep a (g2 ++ [c]) ha t2 s2 more2 htr2,
        tokensEnd_cons_nonsep a g2 ha t s more htr, parseLoop_cons, parseLoop_cons]
      have ih2 := ih b c hc
      rw [htr, htr2, parseLoop_cons, parseLoop_cons, List.cons_append] at ih2
      rw [List.cons_eq_cons] at ih2
      have ht : t2 = t := by
        have h1 := ih2.1
        simp only [Prod.mk.injEq] at h1
        exact h1.1
      subst ht
      rw [List.cons_append, List.cons_eq_cons]
      exact ⟨rfl, ih2.2⟩

theorem newRest_eq (ts : List (List Char × Option Char)) : ∀ b,
    newRestLoop b ts =
      ((parseLoop b ts).filter (fun p => !isSentinel p.1)).map
        (fun p => (⟨newSingle p.1, p.2⟩ : NextSingle)) := by
  induction ts with
  | nil => intro b; rfl
  | cons p more ih =>
    intro b
    obtain ⟨t, s⟩ := p
    cases s with
    | none =>
      by_cases hs : isSentinel t = true <;>
        simp [newRestLoop, parseLoop, List.filter_cons, hs]
    | some sc =>
      by_cases hs : isSentinel t = true <;>
        simp [newRestLoop, parseLoop, List.filter_cons, hs, ih]

theorem newFirst_eq (ts : List (List Char × Option Char)) : ∀ b,
    (((parseLoop b ts).filter (fun p => !isSentinel p.1) = [] →
        newFirstLoop ts = defaultClient) ∧
      (∀ t bb more2,
        (parseLoop b ts).filter (fun p => !isSentinel p.1) = (t, bb) :: more2 →
        newFirstLoop ts =
          ⟨newSingle t, more2.map (fun p => (⟨newSingle p.1, p.2⟩ : NextSingle))⟩)) := by
  induction ts with
  | nil =>
    intro b
    exact ⟨fun _ => rfl, fun t bb more2 h => by simp [parseLoop] at h⟩
  | cons p more ih =>
    intro b
    obtain ⟨t0, s⟩ := p
    cases s with
    | none =>
      by_cases hs : isSentinel t0 = true
      · refine ⟨fun _ => by simp [newFirstLoop, hs], fun t bb more2 h => ?_⟩
        simp [parseLoop, List.filter_cons, hs] at h
      · refine ⟨fun h => ?_, fun t bb more2 h => ?_⟩
        · simp [parseLoop, List.filter_cons, hs] at h
        · simp only [parseLoop, List.filter_cons, hs, Bool.not_false, if_pos,
            List.filter_nil] at h
          rw [List.cons_eq_cons] at h
          have h1 := h.1
          simp only [Prod.mk.injEq] at h1
          rw [newFirstLoop, if_neg (by simp [hs])]
          rw [h1.1, h.2.symm]
          rfl
    | some sc =>
      by_cases hs : isSentinel t0 = true
      · have key : (parseLoop b ((t0, some sc) :: more)).filter (fun p => !isSentinel p.1) =
            (parseLoop (sc == '|') more).filter (fun p => !isSentinel p.1) := by
          simp [parseLoop, List.filter_cons, hs]
        constructor
        · intro h
          rw [key] at h
          rw [newFirstLoop, if_pos hs]
          exact (ih (sc == '|')).1 h
        · intro t bb more2 h
          rw [key] at h
          rw [newFirstLoop, if_pos hs]
          exact (ih (sc == '|')).2 t bb more2 h
      · have key : (parseLoop b ((t0, some sc) :: more)).filter (fun p => !isSentinel p.1) =
            (t0, b) :: (parseLoop (sc == '|') more).filter (fun p => !isSentinel p.1) := by
          simp [parseLoop, List.filter_cons, hs]
        constructor
        · intro h
          rw [key] at h
          simp at h
        · intro t bb more2 h
          rw [key, List.cons_eq_cons] at h
          have h1 := h.1
          simp only [Prod.mk.injEq] at h1
          rw [newFirstLoop, if_neg (by simp [hs])]
          rw [h1.1, h.2.symm]
          rw [newRest_eq more (sc == '|')]

theorem newFirstLoop_sentinels (ts : List (List Char × Option Char))
    (h : ∀ p ∈ ts, isSentinel p.1 = true) : newFirstLoop ts = defaultClient := by
  induction ts with
  | nil => rfl
  | cons p more ih =>
    obtain ⟨t, s⟩ := p
    have ht : isSentinel t = true := h (t, s) (by simp)
    cases s with
    | none => simp [newFirstLoop, ht]
    | some sc =>
      rw [newFirstLoop, if_pos ht]
      exact ih (fun q hq => h q (by simp [hq]))

theorem newMultiFirstLoop_sentinels (nc : List Char → β)
    (ts : List (List Char × Option Char))
    (h : ∀ p ∈ ts, isSentinel p.1 = true) :
    newMultiFirstLoop nc ts = Except.error "no proxy URL found".data := by
  induction ts with
  | nil => rfl
  | cons p more ih =>
    obtain ⟨t, s⟩ := p
    have ht : isSentinel t = true := h (t, s) (by simp)
    cases s with
    | none => simp [newMultiFirstLoop, ht]
    | some sc =>
      rw [newMultiFirstLoop, if_pos ht]
      exact ih (fun q hq => h q (by simp [hq]))

theorem tokensEnd_fst_splitOnP (g : List Char) :
    (tokensEnd g).map Prod.fst = List.splitOnP isSep g := by
  induction g with
  | nil => simp [tokensEnd, List.splitOnP_nil]
  | cons c r ih =>
    by_cases hc : isSep c = true
    · rw [tokensEnd_cons_sep c r hc, List.splitOnP_cons, if_pos hc]
      simp only [List.map_cons]
      rw [ih]
    · obtain ⟨t, s, more, htr⟩ := tokensEnd_exists r
      rw [tokensEnd_cons_nonsep c r hc t s more htr, List.splitOnP_cons,
        if_neg hc, ← ih, htr]
      simp [List.modifyHead_cons]

theorem new_survivors_cases (g : List Char) :
    (survivors g = [] → New g = defaultClient) ∧
    (∀ t b more, survivors g = (t, b) :: more →
      New g = ⟨newSingle t,
        more.map (fun p => (⟨newSingle p.1, p.2⟩ : NextSingle))⟩) := by
  constructor
  · intro h
    exact (newFirst_eq (tokensEnd g) false).1 h
  · intro t b more h
    exact (newFirst_eq (tokensEnd g) false).2 t b more h

/-- C7: Parse is a pure tokenizer: its tokens are exactly the
separator-delimited substrings of the specification, left to right, with no
special-casing of sentinel values; its flags are false for the first token
and, for each later token, true iff the separator immediately preceding
that token was a pipe; the empty specification yields a single empty token;
a specification ending in a separator yields a trailing empty token. -/
theorem parse_pure_tokenizer (g : List Char) :
    (Parse g).map Prod.fst = List.splitOnP isSep g ∧
    (Parse g).map Prod.snd = false :: (g.filter isSep).map (fun c => c == '|') ∧
    Parse ([] : List Char) = [(([] : List Char), false)] ∧
    (∀ c : Char, isSep c = true →
      (Parse (g ++ [c])).getLast? = some (([] : List Char), c == '|')) := by
  refine ⟨?_, ?_, rfl, ?_⟩
  · rw [Parse, parse_fst, tokensEnd_fst_splitOnP]
  · exact parse_snd g false
  · intro c hc
    rw [Parse, parse_concat_sep g false c hc, List.getLast?_concat]

theorem parse_pure_tokenizer_w :
    (Parse ("a|b".data ++ [','])).getLast? = some (([] : List Char), (',' == '|')) :=
  (parse_pure_tokenizer "a|b".data).2.2.2 ',' (by decide)

/-- C4: sentinel tokens never produce chain entries, and each entry's
incoming policy is the Parse flag in effect when its token was encountered,
i.e. the flag derived from the separator that ended the immediately
preceding token, surviving or sentinel (a sentinel's trailing separator
still updates the policy stream).  The chain built by New is therefore
exactly the list of surviving Parse tokens: the first survivor becomes the
unconditional first entry, and every later survivor becomes an entry
carrying its Parse flag. -/
theorem new_entries_are_survivors (g : List Char) :
    (survivors g = [] → New g = defaultClient) ∧
    (∀ t b more, survivors g = (t, b) :: more →
      New g = ⟨newSingle t,
        more.map (fun p => (⟨newSingle p.1, p.2⟩ : NextSingle))⟩) :=
  new_survivors_cases g

theorem new_entries_are_survivors_w :
    New "a,direct|b".data =
      ⟨newSingle "a".data, [⟨newSingle "b".data, true⟩]⟩ :=
  (new_entries_are_survivors "a,direct|b".data).2 "a".data false
    [("b".data, true)] (by decide)

/-- C2, counterexample: it is not the case that each rest entry's incoming
policy is derived from the separator that terminated the previous surviving
entry's token span.  In "a,direct|b" the surviving token "a" is terminated
by ',', yet entry 1 ("b") carries the OnAnyError policy taken from the
sentinel's trailing '|'. -/
theorem policy_not_from_survivor_span :
    ¬ ((New "a,direct|b".data).rest.map (fun n => n.afterAnyErr) =
        ((survivorsEnd "a,direct|b".data).map
          (fun p => p.2 == some '|')).dropLast) := by
  decide

/-- C2, amended: the incoming policy attached to entry i+1 is derived from
the separator immediately preceding entry i+1's token, i.e. the separator
that terminated the span of the token (surviving or sentinel) immediately
preceding it in the full token stream; when no sentinel intervenes this is
the separator terminating entry i's token span.  Entry 0 carries no
incoming policy and is unconditionally attempted first by the walk. -/
theorem policy_from_preceding_separator (g : List Char) :
    ((New g).rest = ((survivorsPre g).drop 1).map
        (fun p => (⟨newSingle p.1, p.2 == some '|'⟩ : NextSingle))) ∧
    (∀ t s tl, survivorsPre g = (t, s) :: tl → (New g).first = newSingle t) ∧
    (∀ (α : Type) (f : Single → Except GoError α) (cl : Client),
      (loopT f cl).1.get? 0 = some cl.first) := by
  have hParse : Parse g = (tokensPre g).map (fun p => (p.1, p.2 == some '|')) :=
    parse_annot g none
  have hsurv : survivors g =
      (survivorsPre g).map (fun p => (p.1, p.2 == some '|')) := by
    rw [survivors, hParse, List.filter_map, survivorsPre]
    exact congrArg _ (List.filter_congr (fun a _ => rfl))
  refine ⟨?_, ?_, ?_⟩
  · cases hsp : survivorsPre g with
    | nil =>
      have h0 : survivors g = [] := by rw [hsurv, hsp]; rfl
      have hd := (new_survivors_cases g).1 h0
      rw [hd]
      rfl
    | cons p tl =>
      obtain ⟨t, s⟩ := p
      have h1 : survivors g = (t, s == some '|') ::
          tl.map (fun p => (p.1, p.2 == some '|')) := by
        rw [hsurv, hsp]; rfl
      have h2 := (new_survivors_cases g).2 t (s == some '|')
        (tl.map (fun p => (p.1, p.2 == some '|'))) h1
      rw [h2]
      simp [List.map_map]
  · intro t s tl hsp
    have h1 : survivors g = (t, s == some '|') ::
        tl.map (fun p => (p.1, p.2 == some '|')) := by
      rw [hsurv, hsp]; rfl
    have h2 := (new_survivors_cases g).2 t (s == some '|')
      (tl.map (fun p => (p.1, p.2 == some '|'))) h1
    rw [h2]
  · intro α f cl
    cases hf : f cl.first <;> simp [loopT, hf]

theorem policy_from_preceding_separator_w :
    (New "a,direct|b".data).first = newSingle "a".data :=
  (policy_from_preceding_separator "a,direct|b".data).2.1 "a".data none
    [("b".data, some '|')] (by decide)

/-- C6: a specification whose tokens are all sentinels (direct, off or
empty, under any mix of separators, including the empty specification)
makes New fall back to the single default backend
https://proxy.golang.org with no further entries, and makes the strict
constructor NewMulti fail with the "no proxy URL found" configuration
error. -/
theorem sentinel_only_default_or_error (g : List Char)
    (h : ∀ p ∈ tokensEnd g, isSentinel p.1 = true) :
    New g = defaultClient ∧
    NewMulti g = Except.error "no proxy URL found".data :=
  ⟨newFirstLoop_sentinels (tokensEnd g) h,
    newMultiFirstLoop_sentinels (fun part => New part) (tokensEnd g) h⟩

theorem sentinel_only_default_or_error_w :
    New "direct,off|".data = defaultClient ∧
    NewMulti "direct,off|".data = Except.error "no proxy URL found".data :=
  sentinel_only_default_or_error "direct,off|".data (by decide)

/-- C5: IsNotFound is true exactly when the error carries, anywhere in its
wrap chain, a machine-readable status code equal to 404 (Not Found) or 410
(Gone); it is false for every other error, in particular for
transport-level errors exposing no status code. -/
theorem isNotFound_iff_carries_404_410 (e : GoError) :
    IsNotFound e = true ↔ (404 ∈ chainCodes e ∨ 410 ∈ chainCodes e) := by
  induction e with
  | codeErr c m =>
    simp only [IsNotFound, errorCode, chainCodes, List.mem_singleton,
      Bool.or_eq_true, beq_iff_eq]
    omega
  | plain m =>
    simp [IsNotFound, errorCode, chainCodes]
  | wrapped m inner ih =>
    simpa [IsNotFound, errorCode, chainCodes] using ih

/-- C10: newSingle strips trailing slashes from the base URL before storing
it, so a base URL followed by one or more trailing '/' characters yields
the same backend value as the bare URL; since every request URL is a
function of the stored backend alone, the two issue identical requests for
every operation. -/
theorem newSingle_ignores_trailing_slashes (u : List Char) (n : Nat)
    (h : 1 ≤ n) :
    newSingle (u ++ List.replicate n '/') = newSingle u := by
  have key : trimRightSlashes (u ++ List.replicate n '/') = trimRightSlashes u := by
    unfold trimRightSlashes
    rw [List.reverse_append, List.reverse_replicate]
    congr 1
    induction n with
    | zero => rfl
    | succ k ih =>
      rw [List.replicate_succ, List.cons_append, List.dropWhile_cons]
      simpa using ih
  simp [newSingle, key]

theorem newSingle_ignores_trailing_slashes_w :
    newSingle ("https://x".data ++ List.replicate 2 '/') = newSingle "https://x".data :=
  newSingle_ignores_trailing_slashes "https://x".data 2 (by decide)

theorem loopRestT_stop (f : Single → Except GoError α) (e : GoError)
    (next : NextSingle) (rest : List NextSingle)
    (hb : next.afterAnyErr = false) (hn : IsNotFound e = false) :
    loopRestT f e (next :: rest) = ([], Except.error e) := by
  simp [loopRestT, hb, hn]

theorem loopRestT_cons_advance (f : Single → Except GoError α) (e : GoError)
    (next : NextSingle) (rest : List NextSingle)
    (hc : (next.afterAnyErr || IsNotFound e) = true) :
    loopRestT f e (next :: rest) =
      match f next.client with
      | Except.ok a => ([next.client], Except.ok a)
      | Except.error e2 =>
        ((next.client :: (loopRestT f e2 rest).1), (loopRestT f e2 rest).2) := by
  have hc2 : (!next.afterAnyErr && !IsNotFound e) = false := by
    cases hb : next.afterAnyErr <;> cases hn : IsNotFound e <;> simp_all
  rw [loopRestT, if_neg (by simp [hc2])]

theorem loopRestT_ne_nil_iff (f : Single → Except GoError α) (e : GoError)
    (next : NextSingle) (rest : List NextSingle) :
    ((loopRestT f e (next :: rest)).1 ≠ []) ↔
      (next.afterAnyErr || IsNotFound e) = true := by
  by_cases hc : (next.afterAnyErr || IsNotFound e) = true
  · rw [loopRestT_cons_advance f e next rest hc]
    cases hf : f next.client <;> simp [hc]
  · have hb : next.afterAnyErr = false := by
      cases hx : next.afterAnyErr
      · rfl
      · exact absurd (by simp [hx]) hc
    have hn : IsNotFound e = false := by
      cases hx : IsNotFound e
      · rfl
      · exact absurd (by simp [hx]) hc
    rw [loopRestT_stop f e next rest hb hn]
    simpa using hc

theorem loopRestT_step (f : Single → Except GoError α) :
    ∀ (rest : List NextSingle) (e0 : GoError) (j : Nat)
      (entj next : NextSingle) (e : GoError),
    rest.get? j = some entj →
    j < (loopRestT f e0 rest).1.length →
    f entj.client = Except.error e →
    rest.get? (j+1) = some next →
    ((j+1 < (loopRestT f e0 rest).1.length) ↔
      (next.afterAnyErr = true ∨ IsNotFound e = true)) ∧
    (next.afterAnyErr = false → IsNotFound e = false →
      (loopRestT f e0 rest).2 = Except.error e) := by
  intro rest
  induction rest with
  | nil =>
    intro e0 j entj next e hj hlen hf hnext
    simp at hj
  | cons n0 rest2 ih =>
    intro e0 j entj next e hj hlen hf hnext
    by_cases hc : (n0.afterAnyErr || IsNotFound e0) = true
    · cases hf0 : f n0.client with
      | ok a =>
        rw [loopRestT_cons_advance f e0 n0 rest2 hc, hf0] at hlen
        have hj0 : j = 0 := by simpa using Nat.lt_one_iff.mp hlen
        subst hj0
        have hentj : n0 = entj := by simpa using hj
        rw [← hentj, hf0] at hf
        exact absurd hf (by simp)
      | error e2 =>
        have hunf : loopRestT f e0 (n0 :: rest2) =
            ((n0.client :: (loopRestT f e2 rest2).1), (loopRestT f e2 rest2).2) := by
          rw [loopRestT_cons_advance f e0 n0 rest2 hc, hf0]
        cases j with
        | zero =>
          have hentj : n0 = entj := by simpa using hj
          have he : e2 = e := by
            rw [← hentj, hf0] at hf
            simpa using hf
          subst he
          have hnext2 : rest2.get? 0 = some next := by simpa using hnext
          obtain ⟨rest3, hrest⟩ : ∃ rest3, rest2 = next :: rest3 := by
            cases hr : rest2 with
            | nil => rw [hr] at hnext2; simp at hnext2
            | cons x xs =>
              rw [hr] at hnext2
              simp at hnext2
              exact ⟨xs, by rw [hnext2]⟩
          constructor
          · rw [hunf]
            simp only [List.length_cons]
            rw [Nat.succ_lt_succ_iff, hrest]
            rw [Nat.pos_iff_ne_zero]
            constructor
            · intro hlz
              have : (loopRestT f e2 (next :: rest3)).1 ≠ [] := by
                intro hnil
                rw [hnil] at hlz
                simp at hlz
              have := (loopRestT_ne_nil_iff f e2 next rest3).mp this
              simpa [Bool.or_eq_true] using this
            · intro hor
              have hc3 : (next.afterAnyErr || IsNotFound e2) = true := by
                simpa [Bool.or_eq_true] using hor
              have := (loopRestT_ne_nil_iff f e2 next rest3).mpr hc3
              simpa [List.length_pos] using List.length_pos.mpr this
          · intro hb hn
            rw [hunf]
            simp only
            rw [hrest, loopRestT_stop f e2 next rest3 hb hn]
        | succ j2 =>
          have hj2 : rest2.get? j2 = some entj := by simpa using hj
          have hnext2 : rest2.get? (j2+1) = some next := by simpa using hnext
          have hlen2 : j2 < (loopRestT f e2 rest2).1.length := by
            rw [hunf] at hlen
            simpa [Nat.succ_lt_succ_iff] using hlen
          have hres := ih e2 j2 entj next e hj2 hlen2 hf hnext2
          constructor
          · rw [hunf]
            simp only [List.length_cons]
            rw [Nat.succ_lt_succ_iff]
            exact hres.1
          · intro hb hn
            rw [hunf]
            exact hres.2 hb hn
    · have hb : n0.afterAnyErr = false := by
        cases hx : n0.afterAnyErr
        · rfl
        · exact absurd (by simp [hx]) hc
      have hn : IsNotFound e0 = false := by
        cases hx : IsNotFound e0
        · rfl
        · exact absurd (by simp [hx]) hc
      rw [loopRestT_stop f e0 n0 rest2 hb hn] at hlen
      simp at hlen

/-- C1: when the attempt against entry i of a resolved chain fails and an
entry i+1 exists, the walk advances to entry i+1 exactly when entry i+1's
incoming policy is OnAnyError (afterAnyErr true, pipe separator) or the
policy is OnNotFoundOnly (comma separator) and the failure is classified
not-found-like; otherwise the walk stops and returns entry i's failure
verbatim.  Entry i is chainEntries at index i, entry i+1 is rest at index i,
and "attempted" means the index lies inside the recorded attempt trace. -/
theorem loop_advance_iff_policy (f : Single → Except GoError α) (cl : Client)
    (i : Nat) (ent : Single) (e : GoError) (next : NextSingle)
    (hent : (chainEntries cl).get? i = some ent)
    (hatt : i < (loopT f cl).1.length)
    (hf : f ent = Except.error e)
    (hnext : cl.rest.get? i = some next) :
    ((i+1 < (loopT f cl).1.length) ↔
      (next.afterAnyErr = true ∨ IsNotFound e = true)) ∧
    (next.afterAnyErr = false → IsNotFound e = false →
      (loopT f cl).2 = Except.error e) := by
  cases hf0 : f cl.first with
  | ok a =>
    have hlen1 : (loopT f cl).1 = [cl.first] := by
      simp [loopT, hf0]
    have hi0 : i = 0 := by
      rw [hlen1] at hatt
      simpa using Nat.lt_one_iff.mp hatt
    subst hi0
    have hent0 : cl.first = ent := by simpa [chainEntries] using hent
    rw [← hent0, hf0] at hf
    exact absurd hf (by simp)
  | error e0 =>
    have hunf : loopT f cl =
        ((cl.first :: (loopRestT f e0 cl.rest).1), (loopRestT f e0 cl.rest).2) := by
      simp [loopT, hf0]
    cases i with
    | zero =>
      have hent0 : cl.first = ent := by simpa [chainEntries] using hent
      have he : e0 = e := by
        rw [← hent0, hf0] at hf
        simpa using hf
      subst he
      obtain ⟨rest3, hrest⟩ : ∃ rest3, cl.rest = next :: rest3 := by
        cases hr : cl.rest with
        | nil => rw [hr] at hnext; simp at hnext
        | cons x xs =>
          rw [hr] at hnext
          simp at hnext
          exact ⟨xs, by rw [hnext]⟩
      constructor
      · rw [hunf]
        simp only [List.length_cons]
        rw [Nat.succ_lt_succ_iff, hrest, Nat.pos_iff_ne_zero]
        constructor
        · intro hlz
          have hne : (loopRestT f e0 (next :: rest3)).1 ≠ [] := by
            intro hnil
            rw [hnil] at hlz
            simp at hlz
          have := (loopRestT_ne_nil_iff f e0 next rest3).mp hne
          simpa [Bool.or_eq_true] using this
        · intro hor
          have hc3 : (next.afterAnyErr || IsNotFound e0) = true := by
            simpa [Bool.or_eq_true] using hor
          have := (loopRestT_ne_nil_iff f e0 next rest3).mpr hc3
          simpa [List.length_pos] using List.length_pos.mpr this
      · intro hb hn
        rw [hunf]
        simp only
        rw [hrest, loopRestT_stop f e0 next rest3 hb hn]
    | succ i2 =>
      obtain ⟨entj, hentj, hcl⟩ :
          ∃ entj : NextSingle, cl.rest.get? i2 = some entj ∧ entj.client = ent := by
        have h2 : (cl.rest.map (fun n => n.client)).get? i2 = some ent := by
          simpa [chainEntries] using hent
        rw [List.get?_map] at h2
        cases hr : cl.rest.get? i2 with
        | none => rw [hr] at h2; simp at h2
        | some x =>
          rw [hr] at h2
          simp at h2
          exact ⟨x, rfl, h2⟩
      have hlen2 : i2 < (loopRestT f e0 cl.rest).1.length := by
        rw [hunf] at hatt
        simpa [Nat.succ_lt_succ_iff] using hatt
      have hf2 : f entj.client = Except.error e := by rw [hcl]; exact hf
      have hres := loopRestT_step f cl.rest e0 i2 entj next e hentj hlen2 hf2 hnext
      constructor
      · rw [hunf]
        simp only [List.length_cons]
        rw [Nat.succ_lt_succ_iff]
        exact hres.1
      · intro hb hn
        rw [hunf]
        exact hres.2 hb hn

def cexA : Single := ⟨"a"⟩

def cexB : Single := ⟨"b"⟩

def cexErr : GoError := GoError.codeErr 404 "not found"

def cexCl : Client := ⟨cexA, [⟨cexB, false⟩]⟩

def cexF : Single → Except GoError Nat := fun s =>
  if s.baseURL = "a" then Except.error cexErr else Except.ok 7

theorem loop_advance_iff_policy_w :
    ((0+1 < (loopT cexF cexCl).1.length) ↔
      ((⟨cexB, false⟩ : NextSingle).afterAnyErr = true ∨ IsNotFound cexErr = true)) ∧
    ((⟨cexB, false⟩ : NextSingle).afterAnyErr = false → IsNotFound cexErr = false →
      (loopT cexF cexCl).2 = Except.error cexErr) :=
  loop_advance_iff_policy cexF cexCl 0 cexA cexErr ⟨cexB, false⟩ rfl
    (by decide) rfl rfl

theorem loopRestT_props (f : Single → Except GoError α) :
    ∀ (rest : List NextSingle) (e : GoError),
    ((loopRestT f e rest).1 =
        (rest.map (fun n => n.client)).take (loopRestT f e rest).1.length) ∧
    ((loopRestT f e rest).1 = [] → (loopRestT f e rest).2 = Except.error e) ∧
    (∀ s, (loopRestT f e rest).1.getLast? = some s →
      (loopRestT f e rest).2 = f s) ∧
    (∀ j s, (loopRestT f e rest).1.get? j = some s →
      j + 1 < (loopRestT f e rest).1.length →
      ∃ e2, f s = Except.error e2) := by
  intro rest
  induction rest with
  | nil =>
    intro e
    refine ⟨rfl, fun _ => rfl, fun s hs => ?_, fun j s hj _ => ?_⟩
    · simp [loopRestT] at hs
    · simp [loopRestT] at hj
  | cons next rest2 ih =>
    intro e
    by_cases hc : (next.afterAnyErr || IsNotFound e) = true
    · cases hf : f next.client with
      | ok a =>
        have hunf : loopRestT f e (next :: rest2) =
            ([next.client], Except.ok a) := by
          rw [loopRestT_cons_advance f e next rest2 hc, hf]
        rw [hunf]
        refine ⟨by simp, by simp, fun s hs => ?_, fun j s hj hlt => ?_⟩
        · simp at hs
          rw [← hs, hf]
        · rw [List.length_singleton] at hlt
          omega
      | error e2 =>
        have hunf : loopRestT f e (next :: rest2) =
            ((next.client :: (loopRestT f e2 rest2).1),
              (loopRestT f e2 rest2).2) := by
          rw [loopRestT_cons_advance f e next rest2 hc, hf]
        have hih := ih e2
        rw [hunf]
        refine ⟨?_, by simp, fun s hs => ?_, fun j s hj hlt => ?_⟩
        · simp only [List.length_cons, List.map_cons, List.take_succ_cons]
          rw [List.cons_eq_cons]
          exact ⟨rfl, hih.1⟩
        · cases hr : (loopRestT f e2 rest2).1 with
          | nil =>
            rw [hr] at hs
            simp at hs
            simp only
            rw [← hs, hf]
            exact hih.2.1 hr
          | cons x xs =>
            rw [hr] at hs
            rw [List.getLast?_cons_cons] at hs
            simp only
            rw [← hr] at hs
            exact hih.2.2.1 s hs
        · cases j with
          | zero =>
            simp at hj
            exact ⟨e2, by rw [← hj]; exact hf⟩
          | succ j2 =>
            simp only [List.get?_cons_succ] at hj
            simp only [List.length_cons, Nat.succ_lt_succ_iff] at hlt
            exact hih.2.2.2 j2 s hj hlt
    · have hb : next.afterAnyErr = false := by
        cases hx : next.afterAnyErr
        · rfl
        · exact absurd (by simp [hx]) hc
      have hn : IsNotFound e = false := by
        cases hx : IsNotFound e
        · rfl
        · exact absurd (by simp [hx]) hc
      rw [loopRestT_stop f e next rest2 hb hn]
      refine ⟨by simp, fun _ => rfl, fun s hs => ?_, fun j s hj _ => ?_⟩
      · simp at hs
      · simp at hj

/-- C3: for every resolved chain and every query, the walk's attempts form
a nonempty prefix of the chain's entries (so each entry is attempted at
most once and no entry is skipped and later attempted), the value returned
is exactly the outcome of the last entry attempted, and every attempted
entry before the last failed, so the first success anywhere is returned
immediately and all earlier failures are discarded.  The five query kinds
Info, Latest, List, Mod and Zip are exactly this walk instantiated at their
single-backend operation f. -/
theorem loop_returns_last_attempt (α : Type) (f : Single → Except GoError α)
    (cl : Client) :
    ((loopT f cl).1 ≠ []) ∧
    ((loopT f cl).1 = (chainEntries cl).take (loopT f cl).1.length) ∧
    (∀ s, (loopT f cl).1.getLast? = some s → (loopT f cl).2 = f s) ∧
    (∀ j s, (loopT f cl).1.get? j = some s →
      j + 1 < (loopT f cl).1.length → ∃ e2, f s = Except.error e2) := by
  cases hf : f cl.first with
  | ok a =>
    have hunf : loopT f cl = ([cl.first], Except.ok a) := by
      simp [loopT, hf]
    rw [hunf]
    refine ⟨by simp, by simp [chainEntries], fun s hs => ?_, fun j s hj hlt => ?_⟩
    · simp at hs
      rw [← hs, hf]
    · rw [List.length_singleton] at hlt
      omega
  | error e0 =>
    have hunf : loopT f cl =
        ((cl.first :: (loopRestT f e0 cl.rest).1),
          (loopRestT f e0 cl.rest).2) := by
      simp [loopT, hf]
    have hih := loopRestT_props f cl.rest e0
    rw [hunf]
    refine ⟨by simp, ?_, fun s hs => ?_, fun j s hj hlt => ?_⟩
    · simp only [List.length_cons, chainEntries, List.take_succ_cons]
      rw [List.cons_eq_cons]
      exact ⟨rfl, hih.1⟩
    · cases hr : (loopRestT f e0 cl.rest).1 with
      | nil =>
        rw [hr] at hs
        simp at hs
        simp only
        rw [← hs, hf]
        exact hih.2.1 hr
      | cons x xs =>
        rw [hr] at hs
        rw [List.getLast?_cons_cons] at hs
        simp only
        rw [← hr] at hs
        exact hih.2.2.1 s hs
    · cases j with
      | zero =>
        simp at hj
        exact ⟨e0, by rw [← hj]; exact hf⟩
      | succ j2 =>
        simp only [List.get?_cons_succ] at hj
        simp only [List.length_cons, Nat.succ_lt_succ_iff] at hlt
        exact hih.2.2.2 j2 s hj hlt

theorem loop_returns_last_attempt_w :
    (loopT cexF cexCl).1 ≠ [] ∧
    (loopT cexF cexCl).1 =
      (chainEntries cexCl).take (loopT cexF cexCl).1.length :=
  ⟨(loop_returns_last_attempt Nat cexF cexCl).1,
    (loop_returns_last_attempt Nat cexF cexCl).2.1⟩

theorem handleInfo_reqErr (w : World) (q m : String)
    (h1 : w.newRequestErr q = some m) :
    Single.handleInfoRequest w q =
      Except.error (GoError.wrapped ("creating GET " ++ q ++ " request")
        (GoError.plain m)) := by
  simp [Single.handleInfoRequest, h1]

theorem handleInfo_netErr (w : World) (q m : String)
    (h1 : w.newRequestErr q = none) (h2 : w.doReq q = Except.error m) :
    Single.handleInfoRequest w q =
      Except.error (GoError.wrapped ("in GET " ++ q) (GoError.plain m)) := by
  simp [Single.handleInfoRequest, h1, h2]

theorem handleInfo_non200 (w : World) (q : String) (resp : Response)
    (h1 : w.newRequestErr q = none) (h2 : w.doReq q = Except.ok resp)
    (h3 : resp.statusCode ≠ 200) :
    Single.handleInfoRequest w q =
      Except.error (GoError.codeErr resp.statusCode
        ("GET " ++ q ++ ": " ++ resp.status)) := by
  simp [Single.handleInfoRequest, h1, h2, h3]

theorem handleInfo_readErr (w : World) (q m : String) (resp : Response)
    (h1 : w.newRequestErr q = none) (h2 : w.doReq q = Except.ok resp)
    (h3 : resp.statusCode = 200) (h4 : resp.readErr = some m) :
    Single.handleInfoRequest w q =
      Except.error (GoError.wrapped ("reading response body from GET " ++ q)
        (GoError.plain m)) := by
  simp [Single.handleInfoRequest, h1, h2, h3, h4]

theorem handleInfo_decodeInfoErr (w : World) (q m : String) (resp : Response)
    (h1 : w.newRequestErr q = none) (h2 : w.doReq q = Except.ok resp)
    (h3 : resp.statusCode = 200) (h4 : resp.readErr = none)
    (h5 : w.unmarshalInfo resp.body = Except.error m) :
    Single.handleInfoRequest w q =
      Except.error (GoError.wrapped ("unmarshaling response body from GET " ++ q)
        (GoError.plain m)) := by
  simp [Single.handleInfoRequest, h1, h2, h3, h4, h5]

theorem handleInfo_decodeMapErr (w : World) (q m : String) (resp : Response)
    (iv : String × Int)
    (h1 : w.newRequestErr q = none) (h2 : w.doReq q = Except.ok resp)
    (h3 : resp.statusCode = 200) (h4 : resp.readErr = none)
    (h5 : w.unmarshalInfo resp.body = Except.ok iv)
    (h6 : w.unmarshalMap resp.body = Except.error m) :
    Single.handleInfoRequest w q =
      Except.error (GoError.wrapped ("unmarshaling response body from GET " ++ q)
        (GoError.plain m)) := by
  simp [Single.handleInfoRequest, h1, h2, h3, h4, h5, h6]

theorem getContent_reqErr (w : World) (s : Single) (mp v sfx m : String)
    (h1 : w.newRequestErr (contentURL s mp v sfx) = some m) :
    Single.getContent w s mp v sfx =
      Except.error (GoError.wrapped
        ("creating GET " ++ contentURL s mp v sfx ++ " request")
        (GoError.plain m)) := by
  simp [Single.getContent, h1]

theorem getContent_netErr (w : World) (s : Single) (mp v sfx m : String)
    (h1 : w.newRequestErr (contentURL s mp v sfx) = none)
    (h2 : w.doReq (contentURL s mp v sfx) = Except.error m) :
    Single.getContent w s mp v sfx =
      Except.error (GoError.wrapped ("in GET " ++ contentURL s mp v sfx)
        (GoError.plain m)) := by
  simp [Single.getContent, h1, h2]

theorem getContent_non200 (w : World) (s : Single) (mp v sfx : String)
    (resp : Response)
    (h1 : w.newRequestErr (contentURL s mp v sfx) = none)
    (h2 : w.doReq (contentURL s mp v sfx) = Except.ok resp)
    (h3 : resp.statusCode ≠ 200) :
    Single.getContent w s mp v sfx =
      Except.error (GoError.codeErr resp.statusCode
        ("GET " ++ contentURL s mp v sfx ++ ": " ++ resp.status)) := by
  simp [Single.getContent, h1, h2, h3]

theorem list_reqErr (w : World) (s : Single) (mp m : String)
    (h1 : w.newRequestErr (listURL s mp) = some m) :
    Single.list w s mp =
      Except.error (GoError.wrapped
        ("creating GET " ++ listURL s mp ++ " request") (GoError.plain m)) := by
  simp [Single.list, h1]

theorem list_netErr (w : World) (s : Single) (mp m : String)
    (h1 : w.newRequestErr (listURL s mp) = none)
    (h2 : w.doReq (listURL s mp) = Except.error m) :
    Single.list w s mp =
      Except.error (GoError.wrapped ("in GET " ++ listURL s mp)
        (GoError.plain m)) := by
  simp [Single.list, h1, h2]

theorem list_non200 (w : World) (s : Single) (mp : String) (resp : Response)
    (h1 : w.newRequestErr (listURL s mp) = none)
    (h2 : w.doReq (listURL s mp) = Except.ok resp)
    (h3 : resp.statusCode ≠ 200) :
    Single.list w s mp =
      Except.error (GoError.codeErr resp.statusCode
        ("GET " ++ listURL s mp ++ ": " ++ resp.status)) := by
  simp [Single.list, h1, h2, h3]

theorem list_scanErr (w : World) (s : Single) (mp m : String) (resp : Response)
    (h1 : w.newRequestErr (listURL s mp) = none)
    (h2 : w.doReq (listURL s mp) = Except.ok resp)
    (h3 : resp.statusCode = 200) (h4 : resp.scanErr = some m) :
    Single.list w s mp =
      Except.error (GoError.wrapped
        ("scanning response from GET " ++ listURL s mp) (GoError.plain m)) := by
  simp [Single.list, h1, h2, h3, h4]

theorem list_ok (w : World) (s : Single) (mp : String) (resp : Response)
    (h1 : w.newRequestErr (listURL s mp) = none)
    (h2 : w.doReq (listURL s mp) = Except.ok resp)
    (h3 : resp.statusCode = 200) (h4 : resp.scanErr = none) :
    Single.list w s mp = Except.ok (semverSort w.semverLE resp.bodyLines) := by
  simp [Single.list, h1, h2, h3, h4]

/-- C8: each of the five backend operations (list, info, latest, mod, zip)
fails with a status-coded error carrying exactly the response's status code
whenever the remote answers with a status other than 200, while
request-construction failures, network failures and body-decode failures
(line scanning for list; body reading and either JSON decode for
info/latest) all produce errors carrying no status code. -/
theorem backend_ops_status_codes (w : World) (s : Single) (mp v : String) :
    (∀ resp : Response, w.newRequestErr (listURL s mp) = none →
      w.doReq (listURL s mp) = Except.ok resp → resp.statusCode ≠ 200 →
      ∃ e, Single.list w s mp = Except.error e ∧
        errorCode e = some resp.statusCode) ∧
    (∀ resp : Response, w.newRequestErr (infoURL s mp v) = none →
      w.doReq (infoURL s mp v) = Except.ok resp → resp.statusCode ≠ 200 →
      ∃ e, Single.info w s mp v = Except.error e ∧
        errorCode e = some resp.statusCode) ∧
    (∀ resp : Response, w.newRequestErr (latestURL s mp) = none →
      w.doReq (latestURL s mp) = Except.ok resp → resp.statusCode ≠ 200 →
      ∃ e, Single.latest w s mp = Except.error e ∧
        errorCode e = some resp.statusCode) ∧
    (∀ resp : Response, w.newRequestErr (contentURL s mp v "mod") = none →
      w.doReq (contentURL s mp v "mod") = Except.ok resp → resp.statusCode ≠ 200 →
      ∃ e, Single.modFile w s mp v = Except.error e ∧
        errorCode e = some resp.statusCode) ∧
    (∀ resp : Response, w.newRequestErr (contentURL s mp v "zip") = none →
      w.doReq (contentURL s mp v "zip") = Except.ok resp → resp.statusCode ≠ 200 →
      ∃ e, Single.zipFile w s mp v = Except.error e ∧
        errorCode e = some resp.statusCode) ∧
    (∀ m, w.newRequestErr (listURL s mp) = some m →
      ∃ e, Single.list w s mp = Except.error e ∧ errorCode e = none) ∧
    (∀ m, w.newRequestErr (infoURL s mp v) = some m →
      ∃ e, Single.info w s mp v = Except.error e ∧ errorCode e = none) ∧
    (∀ m, w.newRequestErr (latestURL s mp) = some m →
      ∃ e, Single.latest w s mp = Except.error e ∧ errorCode e = none) ∧
    (∀ m, w.newRequestErr (contentURL s mp v "mod") = some m →
      ∃ e, Single.modFile w s mp v = Except.error e ∧ errorCode e = none) ∧
    (∀ m, w.newRequestErr (contentURL s mp v "zip") = some m →
      ∃ e, Single.zipFile w s mp v = Except.error e ∧ errorCode e = none) ∧
    (∀ m, w.newRequestErr (listURL s mp) = none →
      w.doReq (listURL s mp) = Except.error m →
      ∃ e, Single.list w s mp = Except.error e ∧ errorCode e = none) ∧
    (∀ m, w.newRequestErr (infoURL s mp v) = none →
      w.doReq (infoURL s mp v) = Except.error m →
      ∃ e, Single.info w s mp v = Except.error e ∧ errorCode e = none) ∧
    (∀ m, w.newRequestErr (latestURL s mp) = none →
      w.doReq (latestURL s mp) = Except.error m →
      ∃ e, Single.latest w s mp = Except.error e ∧ errorCode e = none) ∧
    (∀ m, w.newRequestErr (contentURL s mp v "mod") = none →
      w.doReq (contentURL s mp v "mod") = Except.error m →
      ∃ e, Single.modFile w s mp v = Except.error e ∧ errorCode e = none) ∧
    (∀ m, w.newRequestErr (contentURL s mp v "zip") = none →
      w.doReq (contentURL s mp v "zip") = Except.error m →
      ∃ e, Single.zipFile w s mp v = Except.error e ∧ errorCode e = none) ∧
    (∀ (m : String) (resp : Response), w.newRequestErr (listURL s mp) = none →
      w.doReq (listURL s mp) = Except.ok resp → resp.statusCode = 200 →
      resp.scanErr = some m →
      ∃ e, Single.list w s mp = Except.error e ∧ errorCode e = none) ∧
    (∀ (m : String) (resp : Response), w.newRequestErr (infoURL s mp v) = none →
      w.doReq (infoURL s mp v) = Except.ok resp → resp.statusCode = 200 →
      resp.readErr = some m →
      ∃ e, Single.info w s mp v = Except.error e ∧ errorCode e = none) ∧
    (∀ (m : String) (resp : Response), w.newRequestErr (infoURL s mp v) = none →
      w.doReq (infoURL s mp v) = Except.ok resp → resp.statusCode = 200 →
      resp.readErr = none → w.unmarshalInfo resp.body = Except.error m →
      ∃ e, Single.info w s mp v = Except.error e ∧ errorCode e = none) ∧
    (∀ (m : String) (resp : Response) (iv : String × Int),
      w.newRequestErr (infoURL s mp v) = none →
      w.doReq (infoURL s mp v) = Except.ok resp → resp.statusCode = 200 →
      resp.readErr = none → w.unmarshalInfo resp.body = Except.ok iv →
      w.unmarshalMap resp.body = Except.error m →
      ∃ e, Single.info w s mp v = Except.error e ∧ errorCode e = none) ∧
    (∀ (m : String) (resp : Response), w.newRequestErr (latestURL s mp) = none →
      w.doReq (latestURL s mp) = Except.ok resp → resp.statusCode = 200 →
      resp.readErr = some m →
      ∃ e, Single.latest w s mp = Except.error e ∧ errorCode e = none) ∧
    (∀ (m : String) (resp : Response), w.newRequestErr (latestURL s mp) = none →
      w.doReq (latestURL s mp) = Except.ok resp → resp.statusCode = 200 →
      resp.readErr = none → w.unmarshalInfo resp.body = Except.error m →
      ∃ e, Single.latest w s mp = Except.error e ∧ errorCode e = none) ∧
    (∀ (m : String) (resp : Response) (iv : String × Int),
      w.newRequestErr (latestURL s mp) = none →
      w.doReq (latestURL s mp) = Except.ok resp → resp.statusCode = 200 →
      resp.readErr = none → w.unmarshalInfo resp.body = Except.ok iv →
      w.unmarshalMap resp.body = Except.error m →
      ∃ e, Single.latest w s mp = Except.error e ∧ errorCode e = none) := by
  refine ⟨?_, ?_, ?_, ?_, ?_, ?_, ?_, ?_, ?_, ?_, ?_, ?_, ?_, ?_, ?_, ?_, ?_,
    ?_, ?_, ?_, ?_, ?_⟩
  · intro resp h1 h2 h3
    exact ⟨_, list_non200 w s mp resp h1 h2 h3, rfl⟩
  · intro resp h1 h2 h3
    exact ⟨_, handleInfo_non200 w (infoURL s mp v) resp h1 h2 h3, rfl⟩
  · intro resp h1 h2 h3
    exact ⟨_, handleInfo_non200 w (latestURL s mp) resp h1 h2 h3, rfl⟩
  · intro resp h1 h2 h3
    exact ⟨_, getContent_non200 w s mp v "mod" resp h1 h2 h3, rfl⟩
  · intro resp h1 h2 h3
    exact ⟨_, getContent_non200 w s mp v "zip" resp h1 h2 h3, rfl⟩
  · intro m h1
    exact ⟨_, list_reqErr w s mp m h1, rfl⟩
  · intro m h1
    exact ⟨_, handleInfo_reqErr w (infoURL s mp v) m h1, rfl⟩
  · intro m h1
    exact ⟨_, handleInfo_reqErr w (latestURL s mp) m h1, rfl⟩
  · intro m h1
    exact ⟨_, getContent_reqErr w s mp v "mod" m h1, rfl⟩
  · intro m h1
    exact ⟨_, getContent_reqErr w s mp v "zip" m h1, rfl⟩
  · intro m h1 h2
    exact ⟨_, list_netErr w s mp m h1 h2, rfl⟩
  · intro m h1 h2
    exact ⟨_, handleInfo_netErr w (infoURL s mp v) m h1 h2, rfl⟩
  · intro m h1 h2
    exact ⟨_, handleInfo_netErr w (latestURL s mp) m h1 h2, rfl⟩
  · intro m h1 h2
    exact ⟨_, getContent_netErr w s mp v "mod" m h1 h2, rfl⟩
  · intro m h1 h2
    exact ⟨_, getContent_netErr w s mp v "zip" m h1 h2, rfl⟩
  · intro m resp h1 h2 h3 h4
    exact ⟨_, list_scanErr w s mp m resp h1 h2 h3 h4, rfl⟩
  · intro m resp h1 h2 h3 h4
    exact ⟨_, handleInfo_readErr w (infoURL s mp v) m resp h1 h2 h3 h4, rfl⟩
  · intro m resp h1 h2 h3 h4 h5
    exact ⟨_, handleInfo_decodeInfoErr w (infoURL s mp v) m resp h1 h2 h3 h4 h5, rfl⟩
  · intro m resp iv h1 h2 h3 h4 h5 h6
    exact ⟨_, handleInfo_decodeMapErr w (infoURL s mp v) m resp iv h1 h2 h3 h4 h5 h6, rfl⟩
  · intro m resp h1 h2 h3 h4
    exact ⟨_, handleInfo_readErr w (latestURL s mp) m resp h1 h2 h3 h4, rfl⟩
  · intro m resp h1 h2 h3 h4 h5
    exact ⟨_, handleInfo_decodeInfoErr w (latestURL s mp) m resp h1 h2 h3 h4 h5, rfl⟩
  · intro m resp iv h1 h2 h3 h4 h5 h6
    exact ⟨_, handleInfo_decodeMapErr w (latestURL s mp) m resp iv h1 h2 h3 h4 h5 h6, rfl⟩

def cexW8 : World :=
  ⟨fun _ => none,
    fun _ => Except.ok ⟨404, "404 Not Found", [], "", none, none⟩,
    fun _ => Except.error "no decode",
    fun _ => Except.error "no decode",
    fun _ _ => true⟩

def cexS8 : Single := ⟨"https://p"⟩

theorem backend_ops_status_codes_w :
    ∃ e, Single.list cexW8 cexS8 "m" = Except.error e ∧ errorCode e = some 404 :=
  (backend_ops_status_codes cexW8 cexS8 "m" "v").1
    ⟨404, "404 Not Found", [], "", none, none⟩ rfl rfl (by decide)

theorem loopRestT_ok_exists (f : Single → Except GoError α) :
    ∀ (rest : List NextSingle) (e : GoError) (a : α),
    (loopRestT f e rest).2 = Except.ok a → ∃ s, f s = Except.ok a := by
  intro rest
  induction rest with
  | nil =>
    intro e a h
    simp [loopRestT] at h
  | cons next rest2 ih =>
    intro e a h
    by_cases hc : (next.afterAnyErr || IsNotFound e) = true
    · rw [loopRestT_cons_advance f e next rest2 hc] at h
      cases hf : f next.client with
      | ok b =>
        rw [hf] at h
        simp at h
        exact ⟨next.client, by rw [hf, h]⟩
      | error e2 =>
        rw [hf] at h
        exact ih e2 a h
    · have hb : next.afterAnyErr = false := by
        cases hx : next.afterAnyErr
        · rfl
        · exact absurd (by simp [hx]) hc
      have hn : IsNotFound e = false := by
        cases hx : IsNotFound e
        · rfl
        · exact absurd (by simp [hx]) hc
      rw [loopRestT_stop f e next rest2 hb hn] at h
      simp at h

theorem loopT_ok_exists (f : Single → Except GoError α) (cl : Client) (a : α)
    (h : (loopT f cl).2 = Except.ok a) : ∃ s, f s = Except.ok a := by
  cases hf : f cl.first with
  | ok b =>
    simp [loopT, hf] at h
    exact ⟨cl.first, by rw [hf, h]⟩
  | error e0 =>
    simp [loopT, hf] at h
    exact loopRestT_ok_exists f cl.rest e0 a h

theorem list_ok_inv (w : World) (s : Single) (mp : String) (vs : List String)
    (h : Single.list w s mp = Except.ok vs) :
    ∃ resp : Response, vs = semverSort w.semverLE resp.bodyLines := by
  simp only [Single.list] at h
  split at h
  · exact absurd h (by simp)
  · split at h
    · exact absurd h (by simp)
    · rename_i resp heq2
      split at h
      · split at h
        · exact absurd h (by simp)
        · simp only [Except.ok.injEq] at h
          exact ⟨resp, h.symm⟩
      · exact absurd h (by simp)

/-- C9: the versions returned by the chain-level List query are sorted in
ascending semantic-version order by the client before being returned,
whatever order the remote server listed them in: any successful List result
is sorted under the semantic-version order oracle, assuming only that that
order is transitive and total. -/
theorem clientList_sorted (w : World) (cl : Client) (mp : String)
    (vs : List String)
    (htrans : ∀ a b c : String, w.semverLE a b = true → w.semverLE b c = true →
      w.semverLE a c = true)
    (htotal : ∀ a b : String, w.semverLE a b = true ∨ w.semverLE b a = true)
    (h : ClientList w cl mp = Except.ok vs) :
    List.Sorted (fun a b => w.semverLE a b = true) vs := by
  obtain ⟨s, hs⟩ := loopT_ok_exists (fun s => Single.list w s mp) cl vs h
  obtain ⟨resp, hresp⟩ := list_ok_inv w s mp vs hs
  rw [hresp]
  haveI : IsTotal String (fun a b => w.semverLE a b = true) := ⟨htotal⟩
  haveI : IsTrans String (fun a b => w.semverLE a b = true) :=
    ⟨fun a b c hab hbc => htrans a b c hab hbc⟩
  exact List.sorted_insertionSort _ _

def cexW9 : World :=
  ⟨fun _ => none,
    fun _ => Except.ok ⟨200, "200 OK", ["v2", "v1"], "", none, none⟩,
    fun _ => Except.error "no decode",
    fun _ => Except.error "no decode",
    fun _ _ => true⟩

def cexCl9 : Client := ⟨⟨"https://p"⟩, []⟩

theorem clientList_sorted_w :
    List.Sorted (fun a b => cexW9.semverLE a b = true) ["v2", "v1"] :=
  clientList_sorted cexW9 cexCl9 "m" ["v2", "v1"]
    (fun _ _ _ _ _ => rfl) (fun _ _ => Or.inl rfl) rfl
